import Mathlib

/-! Verification of the FastBurp interception/replay core (src/entrypoints/background.ts).
The TypeScript handlers are shallowly embedded as pure Lean functions over an explicit
background-page state; the outcomes of the asynchronous Chrome calls (proxy reconciler,
body fetch, Fetch.continueRequest, script injection) are supplied as oracle inputs, and
the observable side effects (resume commands, broadcasts, proxy consultations) are
collected in an effect trace. -/

namespace FastBurp

/-! Character-list utilities mirroring the JavaScript string operations used by
`parseRawRequest` in background.ts. JS strings are modelled as `List Char`. -/

/-- JS `String.prototype.split` with a one-character separator: splitting the empty
string yields `[""]`, and a trailing separator yields a trailing empty piece. -/
def splitCh (sep : Char) : List Char → List (List Char)
  | [] => [[]]
  | c :: rest =>
    if c = sep then [] :: splitCh sep rest
    else
      match splitCh sep rest with
      | [] => [[c]]
      | s :: ss => (c :: s) :: ss

/-- Joining with a one-character separator, the inverse direction of `splitCh`. -/
def joinCh (sep : Char) : List (List Char) → List Char
  | [] => []
  | [s] => s
  | s :: rest => s ++ sep :: joinCh sep rest

/-- JS `String.prototype.split` with the two-character separator ": ", scanning left to
right without overlap; this is the split used on each header line of a raw request. -/
def splitColonSpace : List Char → List (List Char)
  | [] => [[]]
  | [c] => [[c]]
  | c :: d :: rest =>
    if c = ':' ∧ d = ' ' then [] :: splitColonSpace rest
    else
      match splitColonSpace (d :: rest) with
      | [] => [[c]]
      | s :: ss => (c :: s) :: ss

/-- Whether the two-character sequence ": " occurs somewhere in the list. -/
def hasColonSpace : List Char → Bool
  | [] => false
  | [_] => false
  | c :: d :: rest => (c = ':' && d = ' ') || hasColonSpace (d :: rest)

/-- JS `String.prototype.includes`: substring containment (the empty needle is
contained in everything). -/
def containsSub (needle : List Char) : List Char → Bool
  | [] => needle.isEmpty
  | c :: rest => needle.isPrefixOf (c :: rest) || containsSub needle rest

/-- One HTTP header, a `{name, value}` pair over char-list strings. -/
structure HeaderL where
  name : List Char
  value : List Char
deriving DecidableEq

/-- Result of `parseRawRequest`: method, URL (undefined when the first line has no
second space-separated component), header list and optional body. -/
structure ParsedRequest where
  method : List Char
  url : Option (List Char)
  headers : List HeaderL
  postData : Option (List Char)
deriving DecidableEq

/-- The body-accumulation step of the parse loop:
`body = (body ? body + '\n' : '') + line`, where both `undefined` and the empty
string are falsy. -/
def bodyAppend (acc : Option (List Char)) (line : List Char) : List Char :=
  match acc with
  | some s => if s = [] then line else s ++ '\n' :: line
  | none => line

/-- The header/body loop of `parseRawRequest`: walk the remaining lines, collecting
headers until the first empty line, then accumulating body lines. A header line that
does not split into exactly two pieces on ": " is dropped. -/
def parseLines : List (List Char) → Bool → List HeaderL → Option (List Char) →
    List HeaderL × Option (List Char)
  | [], _, hs, acc => (hs, acc)
  | line :: rest, isHeaderSection, hs, acc =>
    if isHeaderSection ∧ line = [] then parseLines rest false hs acc
    else if isHeaderSection then
      match splitColonSpace line with
      | [n, v] => parseLines rest true (hs ++ [⟨n, v⟩]) acc
      | _ => parseLines rest true hs acc
    else parseLines rest false hs (some (bodyAppend acc line))

/-- Embedding of `parseRawRequest` from background.ts: strip every `\r`, split on
`\n`, read method and URL from the first line, then run the header/body loop. -/
def parseRawRequest (raw : List Char) : ParsedRequest :=
  let lines := splitCh '\n' (raw.filter (fun c => c ≠ '\r'))
  let firstParts := splitCh ' ' lines.headI
  let p := parseLines lines.tail true [] none
  ⟨firstParts.headI, firstParts.get? 1, p.1, p.2⟩

/-- The characters "HTTP/1.1" of the protocol version tag. -/
def httpVersionTag : List Char := ['H', 'T', 'T', 'P', '/', '1', '.', '1']

/-- The characters " HTTP/1.1" appended after the URL when a raw request is assembled. -/
def httpSuffix : List Char := ' ' :: httpVersionTag

/-- One header line "name: value" of a raw request. -/
def headerLineL (h : HeaderL) : List Char := h.name ++ ':' :: ' ' :: h.value

/-- The header block of an assembled raw request: one "name: value\r\n" line per header. -/
def headerLinesText : List HeaderL → List Char
  | [] => []
  | h :: rest => headerLineL h ++ '\r' :: '\n' :: headerLinesText rest

/-- Well-formedness of a header for the parse/assemble round trip: the name
contains no colon and neither side contains a line break or the ": " separator
inside the value. -/
def wfHeaderL (h : HeaderL) : Prop :=
  ':' ∉ h.name ∧ '\n' ∉ h.name ∧ '\r' ∉ h.name ∧
  '\n' ∉ h.value ∧ '\r' ∉ h.value ∧ hasColonSpace h.value = false

instance (h : HeaderL) : Decidable (wfHeaderL h) := by
  unfold wfHeaderL
  infer_instance

/-- The raw request text assembled by the new-exchange path of the event router:
start line, header lines, and — when a body is given — a blank line and the body. -/
def assembleRawRequest (method url : List Char) (headers : List HeaderL)
    (postData : Option (List Char)) : List Char :=
  method ++ ' ' :: url ++ httpSuffix ++ '\r' :: '\n' :: headerLinesText headers ++
    (match postData with
     | some b => '\r' :: '\n' :: b
     | none => [])

/-! String-level wrappers: the state machine below works over Lean `String`s, so the
char-list parser and assembler are lifted through `String.data`/`String.mk`. -/

/-- One HTTP header over `String`s, as stored in the transaction ledger. -/
structure Header where
  name : String
  value : String
deriving DecidableEq

/-- View a string header as a char-list header. -/
def Header.toL (h : Header) : HeaderL := ⟨h.name.data, h.value.data⟩

/-- View a char-list header as a string header. -/
def HeaderL.toStr (h : HeaderL) : Header := ⟨String.mk h.name, String.mk h.value⟩

/-- Result of `parseRawRequestStr` over `String`s. -/
structure ParsedRequestStr where
  method : String
  url : Option String
  headers : List Header
  postData : Option String
deriving DecidableEq

/-- String-level `parseRawRequest`. -/
def parseRawRequestStr (raw : String) : ParsedRequestStr :=
  let p := parseRawRequest raw.data
  ⟨String.mk p.method, p.url.map String.mk, p.headers.map HeaderL.toStr,
    p.postData.map String.mk⟩

/-- String-level raw-request assembly. -/
def assembleRawRequestStr (method url : String) (headers : List Header)
    (postData : Option String) : String :=
  String.mk (assembleRawRequest method.data url.data (headers.map Header.toL)
    (postData.map String.data))

/-! Data model of the background page: the transaction ledger, the live replay
correlation map, the pending-action set, and the replay-id-to-original-id map,
as declared near the top of `defineBackground` in background.ts. -/

/-- Transaction status: `paused | finished`. -/
inductive TxStatus where
  | paused
  | finished
deriving DecidableEq

/-- Global mode: `intercept | proxy`. -/
inductive Mode where
  | intercept
  | proxy
deriving DecidableEq

/-- One row of `requestsStore`, flattening the nested `request` object of the
TypeScript record into the `req*` fields. -/
structure Transaction where
  id : String
  tabId : Nat
  requestId : String
  reqUrl : Option String
  reqMethod : String
  reqHeaders : List Header
  reqPostData : Option String
  rawRequest : String
  rawResponse : Option String
  status : TxStatus
  isRedirect : Bool
  requestHeaders : List Header
  responseHeaders : Option (List Header)
deriving DecidableEq

/-- One entry of `replayDataStore`, keyed in the state by the correlation token.
The `timeoutId` field is not modelled as data: everywhere in background.ts
`clearTimeout` and `replayDataStore.delete` are performed together, so the timer
is armed exactly while the entry is present (see `handleDeadline`). -/
structure ReplayData where
  originalId : String
  replayId : String
  headers : List Header
  postData : Option String
deriving DecidableEq

/-- The mutable state owned by the background page. -/
structure BgState where
  mode : Mode
  requestsStore : List Transaction
  pendingActions : List String
  replayDataStore : List (String × ReplayData)
  replayIdToOriginalIdMap : List (String × String)
  apiWhitelist : List String
deriving DecidableEq

/-! Small set/map operations with JS `Set`/`Map` semantics. -/

/-- JS `Set.add`: insert if absent, preserving insertion order. -/
def setInsert (s : List String) (x : String) : List String :=
  if x ∈ s then s else s ++ [x]

/-- JS `Set.delete`. -/
def setErase (s : List String) (x : String) : List String :=
  s.filter (fun y => y ≠ x)

/-- JS `Map.get`. -/
def alistLookup {α : Type} (m : List (String × α)) (k : String) : Option α :=
  (m.find? (fun p => p.1 = k)).map Prod.snd

/-- JS `Map.set`: replace in place when present, else append. -/
def alistSet {α : Type} (m : List (String × α)) (k : String) (v : α) :
    List (String × α) :=
  if (m.find? (fun p => p.1 = k)).isSome then
    m.map (fun p => if p.1 = k then (k, v) else p)
  else m ++ [(k, v)]

/-- JS `Map.delete`. -/
def alistErase {α : Type} (m : List (String × α)) (k : String) :
    List (String × α) :=
  m.filter (fun p => p.1 ≠ k)

/-- Replace the element at an index, leaving the list unchanged when out of range
(array index assignment on an existing index). -/
def listModify {α : Type} : List α → Nat → (α → α) → List α
  | [], _, _ => []
  | a :: rest, 0, f => f a :: rest
  | a :: rest, n + 1, f => a :: listModify rest n f

/-- JS truthiness for a string-or-undefined value: `undefined` and the empty
string are both falsy. -/
def truthyS : Option String → Option String
  | some s => if s = "" then none else some s
  | none => none

/-- JS `String.prototype.startsWith`, computed on the character lists. -/
def strStartsWith (s w : String) : Bool :=
  w.data.isPrefixOf s.data

/-- Exact lookup of a header value by name, the object access
`request.headers['X-Replay-Id']`. -/
def headerLookup (hs : List Header) (n : String) : Option String :=
  (hs.find? (fun h => h.name = n)).map Header.value

/-- Index of the transaction with the given ledger id,
`requestsStore.findIndex(r => r.id === uniqueId)` (with `-1` as `none`). -/
def findTxIdx : List Transaction → String → Option Nat
  | [], _ => none
  | t :: rest, id =>
    if t.id = id then some 0 else (findTxIdx rest id).map (fun n => n + 1)

/-! Events, oracles and effects. Each handler's `await`ed Chrome calls are
resolved by oracle fields carried on the event; the handler's outward actions
are recorded as effects. -/

/-- One `Fetch.requestPaused` event as destructured by the listener. -/
structure PauseEvent where
  tabId : Nat
  requestId : String
  url : String
  method : String
  reqHeaders : List Header
  postData : Option String
  responseStatusCode : Option Nat
  responseHeaders : Option (List Header)
  networkId : Option String
  redirectResponse : Bool
deriving DecidableEq

/-- Result of fetching and decoding a response body: the decoded text, or the
message of the exception thrown while retrieving or decoding it. -/
inductive BodyResult where
  | ok (text : String)
  | err (message : String)
deriving DecidableEq

/-- Outcomes of the asynchronous calls made while routing one pause event. -/
structure FetchOracle where
  replayContinueOk : Bool
  proxyHandled : Bool
  bodyResult : BodyResult
  proxyContinueOk : Bool
  proxyContinueErr : String
deriving DecidableEq

/-- The content transformation pipeline (external collaborator, regex-handler.ts):
pure total functions of the content plus the request URL and low-level request id. -/
structure Pipeline where
  processUrl : String → String → String
  processRequestHeader : Header → String → String → Header
  processRequestBody : String → String → String → String
  processResponseHeaders : List Header → String → String → List Header
  processResponseBody : String → String → String → String

/-- Observable actions of a handler. `continueRequest` records a
`Fetch.continueRequest` command with any header/body overrides; `broadcast`
records a push of the full ledger snapshot; `proxyConsulted` records a call to
`applyProxyToRequest`; `injectReplay` records a script-injection attempt. -/
inductive Effect where
  | continueRequest (tabId : Nat) (requestId : String)
      (headers : Option (List Header)) (postData : Option String)
  | broadcast (snapshot : List Transaction)
  | proxyConsulted (requestId : String) (url : String)
  | injectReplay (token : String)
deriving DecidableEq

/-- Whether an effect is a broadcast. -/
def isBroadcast : Effect → Bool
  | .broadcast _ => true
  | _ => false

/-- Whether an effect is a low-level resume command. -/
def isContinue : Effect → Bool
  | .continueRequest _ _ _ _ => true
  | _ => false

/-- Whether an effect is a proxy-reconciler consultation. -/
def isProxyConsult : Effect → Bool
  | .proxyConsulted _ _ => true
  | _ => false

/-- Number of `Fetch.continueRequest` commands in a trace. -/
def countContinues (l : List Effect) : Nat :=
  (l.filter isContinue).length

/-- Whether a trace contains a ledger broadcast. -/
def hasBroadcast (l : List Effect) : Bool :=
  l.any isBroadcast

/-- Number of proxy-reconciler consultations in a trace. -/
def countProxyConsults (l : List Effect) : Nat :=
  (l.filter isProxyConsult).length

/-! The interception event router, `chrome.debugger.onEvent` listener. -/

/-- The replay-correlation check: a truthy `X-Replay-Id` header whose token has a
live entry in `replayDataStore`. -/
def matchReplayToken (s : BgState) (ev : PauseEvent) :
    Option (String × ReplayData) :=
  match truthyS (headerLookup ev.reqHeaders "X-Replay-Id") with
  | none => none
  | some token =>
    match alistLookup s.replayDataStore token with
    | none => none
    | some d => some (token, d)

/-- Ledger identity of a pause event:
`originalRequestIdForUpdate || networkId || tabId-requestId`
with JS falsiness on the two optional strings. -/
def uniqueIdFor (s : BgState) (ev : PauseEvent) : String :=
  match truthyS (alistLookup s.replayIdToOriginalIdMap ev.requestId) with
  | some orig => orig
  | none =>
    match truthyS ev.networkId with
    | some nid => nid
    | none => toString ev.tabId ++ "-" ++ ev.requestId

/-- The status-line text of a response: `responseStatusCode` printed through a JS
template literal, so a missing code prints as "undefined". -/
def statusCodeText : Option Nat → String
  | some n => toString n
  | none => "undefined"

/-- The header block of an assembled raw response, `"name: value\r\n"` per header. -/
def headerBlockStr (hs : List Header) : String :=
  hs.foldl (fun acc h => acc ++ h.name ++ ": " ++ h.value ++ "\r\n") ""

/-- The Response-stage path for an existing transaction (case 4 of the router):
fetch and decode the body (oracle), run headers and body through the pipeline,
assemble the raw response — or record the thrown message as the response text —
then in all cases finish the row, clear the pending guard and the replay-id
mapping, broadcast, and issue the resume command. -/
def responseStagePath (pl : Pipeline) (o : FetchOracle) (s : BgState)
    (ev : PauseEvent) (rh : List Header) (i : Nat) (uid : String) :
    BgState × List Effect :=
  let store1 :=
    match o.bodyResult with
    | BodyResult.ok bodyText =>
      let prh := pl.processResponseHeaders rh ev.url ev.requestId
      let prb := pl.processResponseBody bodyText ev.url ev.requestId
      let raw := "HTTP/1.1 " ++ statusCodeText ev.responseStatusCode ++ "\r\n" ++
        headerBlockStr prh ++ "\r\n" ++ prb
      listModify s.requestsStore i (fun t =>
        { t with rawResponse := some raw, status := TxStatus.finished,
                 responseHeaders := some prh })
    | BodyResult.err m =>
      listModify s.requestsStore i (fun t =>
        { t with rawResponse := some ("Error getting response body: " ++ m),
                 status := TxStatus.finished })
  let s1 := { s with requestsStore := store1,
                     pendingActions := setErase s.pendingActions uid,
                     replayIdToOriginalIdMap :=
                       alistErase s.replayIdToOriginalIdMap ev.requestId }
  (s1, [Effect.broadcast s1.requestsStore,
        Effect.continueRequest ev.tabId ev.requestId none none])

/-- The Request-stage new-exchange path (case 5 of the router): run URL, each
header, and a truthy body through the pipeline, assemble the raw request text,
insert the new row (paused in intercept mode, finished in proxy mode),
broadcast, and in proxy mode immediately issue the resume command, recording a
failure of that command on the row. -/
def newExchangePath (pl : Pipeline) (o : FetchOracle) (s : BgState)
    (ev : PauseEvent) (uid : String) (pfx : List Effect) :
    BgState × List Effect :=
  let processedUrl := pl.processUrl ev.url ev.requestId
  let processedHeaders :=
    ev.reqHeaders.map (fun h => pl.processRequestHeader h ev.url ev.requestId)
  let processedBody :=
    (truthyS ev.postData).map (fun pd => pl.processRequestBody pd ev.url ev.requestId)
  let tx : Transaction :=
    { id := uid, tabId := ev.tabId, requestId := ev.requestId,
      reqUrl := some ev.url, reqMethod := ev.method,
      reqHeaders := ev.reqHeaders, reqPostData := ev.postData,
      rawRequest := assembleRawRequestStr ev.method processedUrl processedHeaders
        processedBody,
      rawResponse := none,
      status := if s.mode = Mode.proxy then TxStatus.finished else TxStatus.paused,
      isRedirect := ev.redirectResponse,
      requestHeaders := processedHeaders, responseHeaders := none }
  let s1 := { s with requestsStore := s.requestsStore ++ [tx] }
  let effs := pfx ++ [Effect.broadcast s1.requestsStore]
  if s.mode = Mode.proxy then
    let effs1 := effs ++ [Effect.continueRequest ev.tabId ev.requestId none none]
    if o.proxyContinueOk then (s1, effs1)
    else
      match findTxIdx s1.requestsStore uid with
      | some j =>
        let s2 := { s1 with requestsStore := listModify s1.requestsStore j (fun t =>
          { t with status := TxStatus.finished,
                   rawResponse := some ("继续请求失败: " ++ o.proxyContinueErr) }) }
        (s2, effs1 ++ [Effect.broadcast s2.requestsStore])
      | none => (s1, effs1)
  else (s1, effs)

/-- Routing of a pause event that is neither whitelisted nor a live replay
correlation: proxy check for initial Request-stage events, then the
Response-stage path, the Request-stage rebind of an already-known exchange, or
the new-exchange path. A Response-stage event with no matching transaction
falls out of both branches and is dropped. -/
def routeNonReplay (pl : Pipeline) (o : FetchOracle) (s : BgState)
    (ev : PauseEvent) : BgState × List Effect :=
  let uid := uniqueIdFor s ev
  let existingIdx := findTxIdx s.requestsStore uid
  let consult := ev.responseHeaders.isNone && !ev.redirectResponse
  let pfx := if consult then [Effect.proxyConsulted ev.requestId ev.url] else []
  if consult && o.proxyHandled then (s, pfx)
  else
    match ev.responseHeaders with
    | some rh =>
      match existingIdx with
      | some i => responseStagePath pl o s ev rh i uid
      | none => (s, pfx)
    | none =>
      match existingIdx with
      | some i =>
        ({ s with requestsStore := listModify s.requestsStore i (fun t =>
             { t with requestId := ev.requestId }) }, pfx)
      | none => newExchangePath pl o s ev uid pfx

/-- Embedding of the `chrome.debugger.onEvent` listener for one
`Fetch.requestPaused` event: invalid-id guard, whitelist bypass, replay
correlation check, then `routeNonReplay`. On the replay match the correlation is
removed and its timer cancelled before the exchange is resumed with the stored
headers and body; a failure of that resume rolls back the id mapping and the
pending entry. -/
def handleFetchPaused (pl : Pipeline) (o : FetchOracle) (s : BgState)
    (ev : PauseEvent) : BgState × List Effect :=
  if ev.requestId = "" then (s, [])
  else if s.apiWhitelist.any (fun w => strStartsWith ev.url w) then
    (s, [Effect.continueRequest ev.tabId ev.requestId none none])
  else
    match matchReplayToken s ev with
    | some (token, data) =>
      let s1 := { s with
        replayDataStore := alistErase s.replayDataStore token,
        replayIdToOriginalIdMap :=
          alistSet s.replayIdToOriginalIdMap ev.requestId data.originalId,
        pendingActions := setInsert s.pendingActions data.originalId }
      let eff := [Effect.continueRequest ev.tabId ev.requestId
        (some data.headers) data.postData]
      if o.replayContinueOk then (s1, eff)
      else
        ({ s1 with
            replayIdToOriginalIdMap :=
              alistErase s1.replayIdToOriginalIdMap ev.requestId,
            pendingActions := setErase s1.pendingActions data.originalId }, eff)
    | none => routeNonReplay pl o s ev

/-! The `browser.runtime.onMessage` listener and the replay deadline. -/

/-- The `requestData` fields read by the resume and replay commands. -/
structure ReqRef where
  id : String
  tabId : Nat
  requestId : String
deriving DecidableEq

/-- The error classification of a failed resume:
`errorStr.includes('Invalid InterceptionId') || errorStr.includes('-32602')`. -/
def isInterceptionIdError (err : String) : Bool :=
  containsSub "Invalid InterceptionId".data err.data ||
    containsSub "-32602".data err.data

/-- Embedding of the `resume-request` command: the pending-action guard, the
validity check (missing row or falsy low-level id), the resume command with the
given or re-parsed headers, and the error branches; every non-guarded run ends
by clearing the pending entry. `continueErr` is the oracle for the
`Fetch.continueRequest` call (`none` means it succeeded). -/
def handleResume (rd : ReqRef) (rawRequest : String)
    (headers : Option (List Header)) (continueErr : Option String)
    (s : BgState) : BgState × List Effect :=
  if rd.id ∈ s.pendingActions then (s, [])
  else
    let sP := { s with pendingActions := setInsert s.pendingActions rd.id }
    match findTxIdx sP.requestsStore rd.id with
    | none =>
      ({ sP with pendingActions := setErase sP.pendingActions rd.id }, [])
    | some i =>
      if rd.requestId = "" then
        let st := { sP with requestsStore := listModify sP.requestsStore i (fun t =>
          { t with status := TxStatus.finished,
                   rawResponse := some "处理失败: 请求已失效或超时" }) }
        ({ st with pendingActions := setErase st.pendingActions rd.id },
         [Effect.broadcast st.requestsStore])
      else
        let sendHeaders := some (match headers with
          | some hs => hs
          | none => (parseRawRequestStr rawRequest).headers)
        let eff := Effect.continueRequest rd.tabId rd.requestId sendHeaders none
        match continueErr with
        | none =>
          let store1 := listModify sP.requestsStore i
            (fun t => { t with status := TxStatus.finished })
          ({ sP with requestsStore := store1,
                     pendingActions := setErase sP.pendingActions rd.id },
           [eff, Effect.broadcast store1])
        | some err =>
          let msg := if isInterceptionIdError err then "请求已自动完成或超时"
            else "放行失败: " ++ err
          let store1 := listModify sP.requestsStore i
            (fun t => { t with status := TxStatus.finished,
                               rawResponse := some msg })
          ({ sP with requestsStore := store1,
                     pendingActions := setErase sP.pendingActions rd.id },
           [eff, Effect.broadcast store1])

/-- Embedding of `cleanupReplayState` for correlation `token`, synthetic row
`rowId` and original id `origId` (the values captured by the closure): if the
correlation is still live, cancel its timer and remove it, and when `updateUI`
is set write `response` onto the synthetic row (skipped when the row no longer
exists) and broadcast; in every case clear the pending entry for `origId`. -/
def cleanupReplayState (token rowId origId : String) (updateUI : Bool)
    (response : String) (s : BgState) : BgState × List Effect :=
  let (s1, effs) :=
    match alistLookup s.replayDataStore token with
    | some _ =>
      let sA := { s with replayDataStore := alistErase s.replayDataStore token }
      if updateUI then
        match findTxIdx sA.requestsStore rowId with
        | some j =>
          let txt := if response = "" then "重放请求超时或失败" else response
          let store1 := listModify sA.requestsStore j
            (fun t => { t with rawResponse := some txt })
          ({ sA with requestsStore := store1 }, [Effect.broadcast store1])
        | none => (sA, [])
      else (sA, [])
    | none => (s, [])
  ({ s1 with pendingActions := setErase s1.pendingActions origId }, effs)

/-- Embedding of the `replay-request` command: the pending-action guard, parsing
the edited raw request, pushing the synthetic UI row, registering the
correlation before the exchange is issued, broadcasting immediately, then the
injection attempt; when injection fails in every candidate tab the correlation
is cleaned up with an error written onto the synthetic row. The fresh
`Date.now()`-based identifiers are supplied as `token` and `rowId`. -/
def handleReplay (rd : ReqRef) (rawRequest : String)
    (headers : Option (List Header)) (token rowId : String) (injectOk : Bool)
    (s : BgState) : BgState × List Effect :=
  if rd.id ∈ s.pendingActions then (s, [])
  else
    let s1 := { s with pendingActions := setInsert s.pendingActions rd.id }
    let p := parseRawRequestStr rawRequest
    let requestHeaders := headers.getD []
    let row : Transaction :=
      { id := rowId, tabId := rd.tabId, requestId := "replay-" ++ rd.requestId,
        reqUrl := p.url, reqMethod := p.method, reqHeaders := requestHeaders,
        reqPostData := none, rawRequest := rawRequest, rawResponse := none,
        status := TxStatus.finished, isRedirect := false,
        requestHeaders := requestHeaders, responseHeaders := none }
    let s2 := { s1 with requestsStore := s1.requestsStore ++ [row] }
    let data : ReplayData :=
      { originalId := rd.id, replayId := rowId, headers := requestHeaders,
        postData := p.postData }
    let s3 := { s2 with replayDataStore := alistSet s2.replayDataStore token data }
    let effs := [Effect.broadcast s3.requestsStore, Effect.injectReplay token]
    if injectOk then (s3, effs)
    else
      let (s4, effs2) := cleanupReplayState token rowId rd.id true
        "重放失败: 无法注入脚本" s3
      (s4, effs ++ effs2)

/-- Embedding of the `replay-fetch-success` / `replay-fetch-failed` handlers,
which differ only in the text written onto the synthetic row: when the
correlation is live, write `text` onto the synthetic row if it still exists and
broadcast, then cancel the timer, remove the correlation and clear the pending
entry; when the correlation is gone the message is a complete no-op. -/
def handleReplaySignal (token text : String) (s : BgState) :
    BgState × List Effect :=
  match alistLookup s.replayDataStore token with
  | none => (s, [])
  | some d =>
    let (s1, effs) :=
      match findTxIdx s.requestsStore d.replayId with
      | some j =>
        let store1 := listModify s.requestsStore j
          (fun t => { t with rawResponse := some text })
        ({ s with requestsStore := store1 }, [Effect.broadcast store1])
      | none => (s, [])
    ({ s1 with replayDataStore := alistErase s1.replayDataStore token,
               pendingActions := setErase s1.pendingActions d.originalId }, effs)

/-- The replay deadline firing for `token`. `clearTimeout` and
`replayDataStore.delete` are always performed together in background.ts, so a
timer can only fire while its entry is live; a fired timer therefore always
finds its data, and the `none` branch (a cancelled timer) does nothing. -/
def handleDeadline (token : String) (s : BgState) : BgState × List Effect :=
  match alistLookup s.replayDataStore token with
  | none => (s, [])
  | some d => cleanupReplayState token d.replayId d.originalId true
      "重放请求超时" s

/-- All discrete events processed by the background page, each carrying the
oracle outcomes of its asynchronous calls. -/
inductive Event where
  | paused (ev : PauseEvent) (o : FetchOracle)
  | getInitial
  | resumeMsg (rd : ReqRef) (rawRequest : String) (headers : Option (List Header))
      (continueErr : Option String)
  | replayMsg (rd : ReqRef) (rawRequest : String) (headers : Option (List Header))
      (token rowId : String) (injectOk : Bool)
  | fetchSuccess (token : String) (response : String)
  | fetchFailed (token : String) (error : String)
  | clearRequests
  | deadlineFired (token : String)
  | setMode (m : Mode)

/-- One step of the background page: dispatch an event to its handler. -/
def step (pl : Pipeline) (s : BgState) : Event → BgState × List Effect
  | .paused ev o => handleFetchPaused pl o s ev
  | .getInitial => (s, [Effect.broadcast s.requestsStore])
  | .resumeMsg rd raw hs err => handleResume rd raw hs err s
  | .replayMsg rd raw hs token rowId ok => handleReplay rd raw hs token rowId ok s
  | .fetchSuccess t r => handleReplaySignal t r s
  | .fetchFailed t e =>
    handleReplaySignal t ("重放请求失败: " ++ (if e = "" then "未知错误" else e)) s
  | .clearRequests => ({ s with requestsStore := [] }, [Effect.broadcast []])
  | .deadlineFired t => handleDeadline t s
  | .setMode m => ({ s with mode := m }, [])

/-! Concrete fixtures used to evaluate the model at explicit inputs. -/

/-- An identity transformation pipeline. -/
def samplePipeline : Pipeline :=
  ⟨fun u _ => u, fun h _ _ => h, fun b _ _ => b, fun hs _ _ => hs, fun b _ _ => b⟩

/-- Oracle where every asynchronous call succeeds. -/
def sampleOracle : FetchOracle :=
  { replayContinueOk := true, proxyHandled := false,
    bodyResult := BodyResult.ok "BODY", proxyContinueOk := true,
    proxyContinueErr := "" }

/-- Oracle where retrieving the response body throws "boom". -/
def sampleOracleErr : FetchOracle :=
  { sampleOracle with bodyResult := BodyResult.err "boom" }

/-- Oracle where the proxy reconciler reports the request as handled. -/
def sampleOracleProxied : FetchOracle :=
  { sampleOracle with proxyHandled := true }

/-- A paused original transaction with ledger id "orig". -/
def sampleTxOrig : Transaction :=
  { id := "orig", tabId := 1, requestId := "R1", reqUrl := some "http://e.com/",
    reqMethod := "GET", reqHeaders := [], reqPostData := none,
    rawRequest := "GET http://e.com/ HTTP/1.1\r\n", rawResponse := none,
    status := TxStatus.paused, isRedirect := false, requestHeaders := [],
    responseHeaders := none }

/-- The synthetic UI row of a replay of `sampleTxOrig`. -/
def sampleTxReplay : Transaction :=
  { id := "replay-row", tabId := 1, requestId := "replay-R1",
    reqUrl := some "http://e.com/", reqMethod := "GET", reqHeaders := [],
    reqPostData := none, rawRequest := "GET http://e.com/ HTTP/1.1\r\n",
    rawResponse := none, status := TxStatus.finished, isRedirect := false,
    requestHeaders := [], responseHeaders := none }

/-- A live correlation binding token "tok" to the rows above. -/
def sampleReplayData : ReplayData :=
  { originalId := "orig", replayId := "replay-row", headers := [⟨"A", "1"⟩],
    postData := some "pd" }

/-- A state with both rows and the live correlation "tok". -/
def sampleState : BgState :=
  { mode := Mode.intercept, requestsStore := [sampleTxOrig, sampleTxReplay],
    pendingActions := [], replayDataStore := [("tok", sampleReplayData)],
    replayIdToOriginalIdMap := [], apiWhitelist := [] }

/-- The same state after the correlation has already been resolved. -/
def sampleStateResolved : BgState :=
  { sampleState with replayDataStore := [] }

/-- A state whose ledger has been cleared while the correlation "tok" is still
live and its original id is still marked pending. -/
def sampleStateCleared : BgState :=
  { sampleState with requestsStore := [], pendingActions := ["orig"] }

/-- A Request-stage pause event carrying the live correlation token. -/
def sampleMatchEvent : PauseEvent :=
  { tabId := 1, requestId := "R9", url := "http://e.com/", method := "GET",
    reqHeaders := [⟨"X-Replay-Id", "tok"⟩], postData := none,
    responseStatusCode := none, responseHeaders := none, networkId := some "N9",
    redirectResponse := false }

/-- The Response-stage pause event of the continued replay exchange. -/
def sampleReplayResponseEvent : PauseEvent :=
  { tabId := 1, requestId := "R9", url := "http://e.com/", method := "GET",
    reqHeaders := [], postData := none, responseStatusCode := some 200,
    responseHeaders := some [⟨"C", "d"⟩], networkId := some "N9",
    redirectResponse := false }

/-- A Response-stage pause event matching no existing transaction. -/
def sampleOrphanResponseEvent : PauseEvent :=
  { tabId := 1, requestId := "R77", url := "http://q.example/", method := "GET",
    reqHeaders := [], postData := none, responseStatusCode := some 200,
    responseHeaders := some [], networkId := some "NOMATCH",
    redirectResponse := false }

/-- A Request-stage pause event whose identity matches the existing row "orig". -/
def sampleRebindEvent : PauseEvent :=
  { tabId := 1, requestId := "R2", url := "http://e.com/", method := "GET",
    reqHeaders := [], postData := none, responseStatusCode := none,
    responseHeaders := none, networkId := some "orig",
    redirectResponse := false }

/-- A brand-new Request-stage pause event. -/
def sampleNewEvent : PauseEvent :=
  { tabId := 1, requestId := "R5", url := "http://new.example/",
    method := "POST", reqHeaders := [⟨"H", "v"⟩], postData := some "x=1",
    responseStatusCode := none, responseHeaders := none,
    networkId := some "N5", redirectResponse := false }

/-- A pause event still carrying the token "tok" but arriving after the
correlation has been resolved (fresh low-level and network ids). -/
def sampleLateMatchEvent : PauseEvent :=
  { tabId := 1, requestId := "R10", url := "http://e.com/", method := "GET",
    reqHeaders := [⟨"X-Replay-Id", "tok"⟩], postData := none,
    responseStatusCode := none, responseHeaders := none,
    networkId := some "N10", redirectResponse := false }

/-- The Response-stage event for the transaction "orig" on its own id. -/
def sampleOrigResponseEvent : PauseEvent :=
  { tabId := 1, requestId := "R1", url := "http://e.com/", method := "GET",
    reqHeaders := [], postData := none, responseStatusCode := some 200,
    responseHeaders := some [⟨"C", "d"⟩], networkId := some "orig",
    redirectResponse := false }

/-- Whether an event is a Request-stage pause whose derived identity already has
a ledger row — the rebind path of the router (case 6), which mutates the row's
low-level request id without broadcasting. -/
def isRebindPaused (s : BgState) : Event → Bool
  | Event.paused ev _ =>
    ev.responseHeaders.isNone &&
      (findTxIdx s.requestsStore (uniqueIdFor s ev)).isSome
  | _ => false

/-! Helper lemmas about the set, map and list primitives. -/

theorem setErase_not_mem (s : List String) (x : String) : x ∉ setErase s x := by
  simp [setErase]

theorem listModify_get_eq {α : Type} (l : List α) (i : Nat) (f : α → α) (a : α)
    (h : l[i]? = some a) : (listModify l i f)[i]? = some (f a) := by
  induction l generalizing i with
  | nil => simp at h
  | cons b rest ih =>
    cases i with
    | zero =>
      simp at h
      subst h
      simp [listModify]
    | succ n =>
      simp [listModify] at h ⊢
      exact ih n h

/-! Routing lemmas: how `handleFetchPaused` reduces under the guard conditions. -/

theorem handleFetchPaused_routes (pl : Pipeline) (o : FetchOracle) (s : BgState)
    (ev : PauseEvent) (h1 : ¬ ev.requestId = "")
    (h2 : s.apiWhitelist.any (fun w => strStartsWith ev.url w) = false)
    (h3 : matchReplayToken s ev = none) :
    handleFetchPaused pl o s ev = routeNonReplay pl o s ev := by
  simp [handleFetchPaused, h1, h2, h3]

theorem routeNonReplay_response (pl : Pipeline) (o : FetchOracle) (s : BgState)
    (ev : PauseEvent) (rh : List Header) (i : Nat)
    (h4 : ev.responseHeaders = some rh)
    (h5 : findTxIdx s.requestsStore (uniqueIdFor s ev) = some i) :
    routeNonReplay pl o s ev =
      responseStagePath pl o s ev rh i (uniqueIdFor s ev) := by
  simp [routeNonReplay, h4, h5]

/-- C4 (error_handling): on the Response-stage path for an existing transaction,
a thrown body retrieval/decoding error is recorded as the transaction's response
text, the status is set to finished, the pending-action guard for the ledger id
is cleared, an update is broadcast, and the paused exchange is still resumed
(exactly one resume command is issued). -/
theorem responseBodyErrorSurfaced (pl : Pipeline) (o : FetchOracle) (s : BgState)
    (ev : PauseEvent) (rh : List Header) (i : Nat) (tx : Transaction) (m : String)
    (h1 : ¬ ev.requestId = "")
    (h2 : s.apiWhitelist.any (fun w => strStartsWith ev.url w) = false)
    (h3 : matchReplayToken s ev = none)
    (h4 : ev.responseHeaders = some rh)
    (h5 : findTxIdx s.requestsStore (uniqueIdFor s ev) = some i)
    (h6 : s.requestsStore[i]? = some tx)
    (h7 : o.bodyResult = BodyResult.err m) :
    (handleFetchPaused pl o s ev).1.requestsStore[i]? =
      some { tx with rawResponse := some ("Error getting response body: " ++ m),
                     status := TxStatus.finished } ∧
    uniqueIdFor s ev ∉ (handleFetchPaused pl o s ev).1.pendingActions ∧
    hasBroadcast (handleFetchPaused pl o s ev).2 = true ∧
    countContinues (handleFetchPaused pl o s ev).2 = 1 := by
  rw [handleFetchPaused_routes pl o s ev h1 h2 h3,
      routeNonReplay_response pl o s ev rh i h4 h5]
  refine ⟨?_, ?_, ?_, ?_⟩
  · simp only [responseStagePath, h7]
    exact listModify_get_eq s.requestsStore i _ tx h6
  · simp only [responseStagePath, h7]
    exact setErase_not_mem s.pendingActions (uniqueIdFor s ev)
  · simp [responseStagePath, h7, hasBroadcast, isBroadcast]
  · simp [responseStagePath, h7, countContinues, isContinue, isBroadcast,
      List.filter]

/-- Witness for C4 at a concrete state and event. -/
theorem responseBodyErrorSurfaced_witness :
    (handleFetchPaused samplePipeline sampleOracleErr sampleState
        sampleOrigResponseEvent).1.requestsStore[0]? =
      some { sampleTxOrig with
               rawResponse := some ("Error getting response body: " ++ "boom"),
               status := TxStatus.finished } ∧
    uniqueIdFor sampleState sampleOrigResponseEvent ∉
      (handleFetchPaused samplePipeline sampleOracleErr sampleState
        sampleOrigResponseEvent).1.pendingActions ∧
    hasBroadcast (handleFetchPaused samplePipeline sampleOracleErr sampleState
        sampleOrigResponseEvent).2 = true ∧
    countContinues (handleFetchPaused samplePipeline sampleOracleErr sampleState
        sampleOrigResponseEvent).2 = 1 :=
  responseBodyErrorSurfaced samplePipeline sampleOracleErr sampleState
    sampleOrigResponseEvent [⟨"C", "d"⟩] 0 sampleTxOrig "boom"
    (by decide) (by decide) (by decide) (by decide) (by decide) (by decide)
    (by decide)

/-! More routing lemmas. -/

theorem routeNonReplay_new (pl : Pipeline) (o : FetchOracle) (s : BgState)
    (ev : PauseEvent) (hRH : ev.responseHeaders = none)
    (hIdx : findTxIdx s.requestsStore (uniqueIdFor s ev) = none)
    (hP : o.proxyHandled = false) :
    routeNonReplay pl o s ev = newExchangePath pl o s ev (uniqueIdFor s ev)
      (if ev.redirectResponse then []
       else [Effect.proxyConsulted ev.requestId ev.url]) := by
  cases hr : ev.redirectResponse <;> simp [routeNonReplay, hRH, hIdx, hP, hr]

theorem routeNonReplay_rebind (pl : Pipeline) (o : FetchOracle) (s : BgState)
    (ev : PauseEvent) (i : Nat) (hRH : ev.responseHeaders = none)
    (hIdx : findTxIdx s.requestsStore (uniqueIdFor s ev) = some i)
    (hP : o.proxyHandled = false) :
    routeNonReplay pl o s ev =
      ({ s with requestsStore := listModify s.requestsStore i (fun t =>
           { t with requestId := ev.requestId }) },
       if ev.redirectResponse then []
       else [Effect.proxyConsulted ev.requestId ev.url]) := by
  cases hr : ev.redirectResponse <;> simp [routeNonReplay, hRH, hIdx, hP, hr]

theorem findTxIdx_append_right (l : List Transaction) (tx : Transaction)
    (uid : String) (h : findTxIdx l uid = none) (ht : tx.id = uid) :
    findTxIdx (l ++ [tx]) uid = some l.length := by
  induction l with
  | nil => simp [findTxIdx, ht]
  | cons a rest ih =>
    rw [List.cons_append]
    simp only [findTxIdx] at h ⊢
    by_cases ha : a.id = uid
    · simp [ha] at h
    · simp only [if_neg ha] at h ⊢
      have h2 : findTxIdx rest uid = none := by
        cases hfi : findTxIdx rest uid with
        | none => rfl
        | some n => rw [hfi] at h; simp at h
      rw [ih h2]
      simp

theorem listModify_append_last {α : Type} (l : List α) (a : α) (f : α → α) :
    listModify (l ++ [a]) l.length f = l ++ [f a] := by
  induction l with
  | nil => rfl
  | cons b rest ih => simp [listModify, ih]

/-- C5 (functional_correctness, corrected): a *Request-stage* pause event whose
identity matches no existing Transaction and which carries no correlation token
is always treated as a brand-new exchange — a Transaction is inserted at the end
of the ledger — but a *Response-stage* pause event (one carrying response
headers) with no matching Transaction is silently ignored: the state is
unchanged and no effect (no insertion, no resume) is produced. -/
theorem unmatchedEventHandling (pl : Pipeline) (o o2 : FetchOracle)
    (s : BgState) (ev ev2 : PauseEvent) (rh2 : List Header)
    (h1 : ¬ ev.requestId = "")
    (h2 : s.apiWhitelist.any (fun w => strStartsWith ev.url w) = false)
    (h3 : matchReplayToken s ev = none)
    (hRH : ev.responseHeaders = none)
    (hIdx : findTxIdx s.requestsStore (uniqueIdFor s ev) = none)
    (hP : o.proxyHandled = false)
    (g1 : ¬ ev2.requestId = "")
    (g2 : s.apiWhitelist.any (fun w => strStartsWith ev2.url w) = false)
    (g3 : matchReplayToken s ev2 = none)
    (gRH : ev2.responseHeaders = some rh2)
    (gIdx : findTxIdx s.requestsStore (uniqueIdFor s ev2) = none) :
    (∃ tx, (handleFetchPaused pl o s ev).1.requestsStore =
      s.requestsStore ++ [tx]) ∧
    handleFetchPaused pl o2 s ev2 = (s, []) := by
  constructor
  · rw [handleFetchPaused_routes pl o s ev h1 h2 h3,
        routeNonReplay_new pl o s ev hRH hIdx hP]
    simp only [newExchangePath]
    split
    · split
      · exact ⟨_, rfl⟩
      · rw [findTxIdx_append_right s.requestsStore _ (uniqueIdFor s ev) hIdx rfl]
        simp only
        rw [listModify_append_last]
        exact ⟨_, rfl⟩
    · exact ⟨_, rfl⟩
  · rw [handleFetchPaused_routes pl o2 s ev2 g1 g2 g3]
    simp [routeNonReplay, gRH, gIdx]

/-- Counterexample to C5 as stated: a concrete Response-stage pause event whose
identity matches no existing Transaction and which carries no correlation token
is silently ignored — no Transaction is created, the state and the ledger are
completely unchanged and no effect is produced. -/
theorem unmatchedResponseIgnored_counterexample :
    handleFetchPaused samplePipeline sampleOracle sampleState
      sampleOrphanResponseEvent = (sampleState, []) ∧
    (handleFetchPaused samplePipeline sampleOracle sampleState
      sampleOrphanResponseEvent).1.requestsStore.length =
      sampleState.requestsStore.length := by
  constructor <;> decide

/-- Witness for C5 (amended) at a concrete state and events. -/
theorem unmatchedEventHandling_witness :
    (∃ tx, (handleFetchPaused samplePipeline sampleOracle sampleState
      sampleNewEvent).1.requestsStore = sampleState.requestsStore ++ [tx]) ∧
    handleFetchPaused samplePipeline sampleOracle sampleState
      sampleOrphanResponseEvent = (sampleState, []) :=
  unmatchedEventHandling samplePipeline sampleOracle sampleOracle sampleState
    sampleNewEvent sampleOrphanResponseEvent [] (by decide) (by decide)
    (by decide) (by decide) (by decide) (by decide) (by decide) (by decide)
    (by decide) (by decide) (by decide)

/-- C6 (algebraic_relational): the pending-action guard makes `resume-request`
idempotent — a second invocation for the same transaction id arriving while the
id is still pending returns at once with no state change and no low-level
resume command; any single invocation issues at most one resume command; and a
completed non-guarded invocation always removes the pending entry. -/
theorem resumeIdempotent (rd : ReqRef) (rawRequest : String)
    (headers : Option (List Header)) (continueErr : Option String)
    (s sMid : BgState) :
    (rd.id ∈ sMid.pendingActions →
      handleResume rd rawRequest headers continueErr sMid = (sMid, [])) ∧
    countContinues (handleResume rd rawRequest headers continueErr s).2 ≤ 1 ∧
    (rd.id ∉ s.pendingActions →
      rd.id ∉ (handleResume rd rawRequest headers continueErr s).1.pendingActions) := by
  refine ⟨?_, ?_, ?_⟩
  · intro hmem
    simp [handleResume, hmem]
  · by_cases hmem : rd.id ∈ s.pendingActions
    · simp [handleResume, hmem, countContinues]
    · simp only [handleResume, if_neg hmem]
      cases hidx : findTxIdx s.requestsStore rd.id with
      | none => simp [countContinues]
      | some i =>
        by_cases hreq : rd.requestId = ""
        · simp [hreq, countContinues, isContinue]
        · cases continueErr with
          | none => simp [hreq, countContinues, isContinue, List.filter]
          | some err => simp [hreq, countContinues, isContinue, List.filter]
  · intro hmem
    simp only [handleResume, if_neg hmem]
    cases hidx : findTxIdx s.requestsStore rd.id with
    | none => exact setErase_not_mem _ _
    | some i =>
      by_cases hreq : rd.requestId = ""
      · simp only [hreq, if_pos rfl]
        exact setErase_not_mem _ _
      · cases continueErr with
        | none =>
          simp only [hreq, if_neg hreq]
          exact setErase_not_mem _ _
        | some err =>
          simp only [hreq, if_neg hreq]
          exact setErase_not_mem _ _

/-- Witness for C6 at a concrete state: the second invocation while "orig" is
pending does nothing, and a completed run leaves "orig" not pending. -/
theorem resumeIdempotent_witness :
    ("orig" ∈ sampleStateCleared.pendingActions →
      handleResume ⟨"orig", 1, "R1"⟩ "" none none sampleStateCleared =
        (sampleStateCleared, [])) ∧
    countContinues (handleResume ⟨"orig", 1, "R1"⟩ "" none none sampleState).2 ≤ 1 ∧
    ("orig" ∉ sampleState.pendingActions →
      "orig" ∉ (handleResume ⟨"orig", 1, "R1"⟩ "" none none
        sampleState).1.pendingActions) :=
  resumeIdempotent ⟨"orig", 1, "R1"⟩ "" none none sampleState sampleStateCleared

/-- C10 (frame_effect): `clear-requests` empties the ledger and broadcasts but
leaves the mode, the pending-action set, the live correlation map and the
replay-id map unchanged; and a correlation still live after a clear later
resolves through the direct-signal handler or the deadline, which removes the
correlation and its pending entry without re-inserting any ledger row (the
row-update and its broadcast are skipped because the synthetic row is gone). -/
theorem clearAllFrameEffect (pl : Pipeline) (s s2 : BgState)
    (token text : String) (d : ReplayData)
    (hLive : alistLookup s2.replayDataStore token = some d)
    (hRow : findTxIdx s2.requestsStore d.replayId = none) :
    step pl s Event.clearRequests =
      ({ s with requestsStore := [] }, [Effect.broadcast []]) ∧
    handleReplaySignal token text s2 =
      ({ s2 with replayDataStore := alistErase s2.replayDataStore token,
                 pendingActions := setErase s2.pendingActions d.originalId },
       []) ∧
    handleDeadline token s2 =
      ({ s2 with replayDataStore := alistErase s2.replayDataStore token,
                 pendingActions := setErase s2.pendingActions d.originalId },
       []) := by
  refine ⟨rfl, ?_, ?_⟩
  · simp [handleReplaySignal, hLive, hRow]
  · simp [handleDeadline, hLive, cleanupReplayState, hRow]

/-- Witness for C10 at a concrete cleared state with a live correlation. -/
theorem clearAllFrameEffect_witness :
    step samplePipeline sampleState Event.clearRequests =
      ({ sampleState with requestsStore := [] }, [Effect.broadcast []]) ∧
    handleReplaySignal "tok" "RESP" sampleStateCleared =
      ({ sampleStateCleared with
           replayDataStore := alistErase sampleStateCleared.replayDataStore "tok",
           pendingActions := setErase sampleStateCleared.pendingActions "orig" },
       []) ∧
    handleDeadline "tok" sampleStateCleared =
      ({ sampleStateCleared with
           replayDataStore := alistErase sampleStateCleared.replayDataStore "tok",
           pendingActions := setErase sampleStateCleared.pendingActions "orig" },
       []) :=
  clearAllFrameEffect samplePipeline sampleState sampleStateCleared "tok" "RESP"
    sampleReplayData (by decide) (by decide)

/-! Lemmas about the association-list and set primitives. -/

theorem alistLookup_erase_self {α : Type} (m : List (String × α)) (k : String) :
    alistLookup (alistErase m k) k = none := by
  induction m with
  | nil => rfl
  | cons p rest ih =>
    by_cases hp : p.1 = k
    · have h1 : alistErase (p :: rest) k = alistErase rest k := by
        simp [alistErase, List.filter_cons, hp]
      rw [h1]
      exact ih
    · have h1 : alistErase (p :: rest) k = p :: alistErase rest k := by
        simp [alistErase, List.filter_cons, hp]
      have h2 : alistLookup (p :: alistErase rest k) k =
          alistLookup (alistErase rest k) k := by
        simp [alistLookup, List.find?, hp]
      rw [h1, h2]
      exact ih

theorem alistLookup_set_self {α : Type} (m : List (String × α)) (k : String)
    (v : α) : alistLookup (alistSet m k v) k = some v := by
  induction m with
  | nil => simp [alistLookup, alistSet, List.find?]
  | cons p rest ih =>
    by_cases hp : p.1 = k
    · simp [alistSet, alistLookup, List.find?, hp]
    · have hfind : (p :: rest).find? (fun q => q.1 = k) =
        rest.find? (fun q => q.1 = k) := by
        simp [List.find?, hp]
      by_cases hr : (rest.find? (fun q => q.1 = k)).isSome
      · have hset : alistSet (p :: rest) k v =
            p :: (rest.map (fun q => if q.1 = k then (k, v) else q)) := by
          simp [alistSet, hfind, hr, hp]
        have hskip : alistLookup
            (p :: (rest.map (fun q => if q.1 = k then (k, v) else q))) k =
            alistLookup (rest.map (fun q => if q.1 = k then (k, v) else q)) k := by
          simp [alistLookup, List.find?, hp]
        have hsetr : alistSet rest k v =
            rest.map (fun q => if q.1 = k then (k, v) else q) := by
          simp [alistSet, hr]
        rw [hset, hskip, ← hsetr]
        exact ih
      · have hset : alistSet (p :: rest) k v = p :: (rest ++ [(k, v)]) := by
          simp [alistSet, hfind, hr, hp]
        have hskip : alistLookup (p :: (rest ++ [(k, v)])) k =
            alistLookup (rest ++ [(k, v)]) k := by
          simp [alistLookup, List.find?, hp]
        have hsetr : alistSet rest k v = rest ++ [(k, v)] := by
          simp [alistSet, hr]
        rw [hset, hskip, ← hsetr]
        exact ih

theorem setInsert_mem_self (s : List String) (x : String) :
    x ∈ setInsert s x := by
  simp only [setInsert]
  split
  · assumption
  · simp

theorem uniqueIdFor_mapped (s : BgState) (ev : PauseEvent) (x : String)
    (h : truthyS (alistLookup s.replayIdToOriginalIdMap ev.requestId) = some x) :
    uniqueIdFor s ev = x := by
  simp [uniqueIdFor, h]

/-- C2 (functional_correctness, corrected): a Request-stage pause event whose
correlation token matches a live replay correlation cancels the correlation's
deadline and removes it, maps the low-level request id to the *original*
transaction id, marks the original id pending, and resumes the exchange with
the stored headers and body without adding a ledger row; the eventual
Response-stage completion of that exchange is then written onto the *original*
transaction's row (`originalId`), not onto the replay's synthetic row. -/
theorem replayMatchRouting (pl : Pipeline) (o o2 : FetchOracle) (s s2 : BgState)
    (ev ev2 : PauseEvent) (token : String) (d : ReplayData) (rh2 : List Header)
    (i : Nat) (tx : Transaction) (body : String)
    (h1 : ¬ ev.requestId = "")
    (h2 : s.apiWhitelist.any (fun w => strStartsWith ev.url w) = false)
    (h3 : matchReplayToken s ev = some (token, d))
    (h4 : o.replayContinueOk = true)
    (g1 : ¬ ev2.requestId = "")
    (g2 : s2.apiWhitelist.any (fun w => strStartsWith ev2.url w) = false)
    (g3 : matchReplayToken s2 ev2 = none)
    (g4 : ev2.responseHeaders = some rh2)
    (g5 : truthyS (alistLookup s2.replayIdToOriginalIdMap ev2.requestId) =
      some d.originalId)
    (g6 : findTxIdx s2.requestsStore d.originalId = some i)
    (g7 : s2.requestsStore[i]? = some tx)
    (g8 : o2.bodyResult = BodyResult.ok body) :
    alistLookup (handleFetchPaused pl o s ev).1.replayDataStore token = none ∧
    alistLookup (handleFetchPaused pl o s ev).1.replayIdToOriginalIdMap
      ev.requestId = some d.originalId ∧
    d.originalId ∈ (handleFetchPaused pl o s ev).1.pendingActions ∧
    (handleFetchPaused pl o s ev).1.requestsStore = s.requestsStore ∧
    (handleFetchPaused pl o s ev).2 =
      [Effect.continueRequest ev.tabId ev.requestId (some d.headers)
        d.postData] ∧
    (handleFetchPaused pl o2 s2 ev2).1.requestsStore[i]? =
      some { tx with
        rawResponse := some ("HTTP/1.1 " ++
          statusCodeText ev2.responseStatusCode ++ "\r\n" ++
          headerBlockStr (pl.processResponseHeaders rh2 ev2.url ev2.requestId) ++
          "\r\n" ++ pl.processResponseBody body ev2.url ev2.requestId),
        status := TxStatus.finished,
        responseHeaders :=
          some (pl.processResponseHeaders rh2 ev2.url ev2.requestId) } := by
  have hmain : handleFetchPaused pl o s ev =
      ({ s with replayDataStore := alistErase s.replayDataStore token,
                replayIdToOriginalIdMap :=
                  alistSet s.replayIdToOriginalIdMap ev.requestId d.originalId,
                pendingActions := setInsert s.pendingActions d.originalId },
       [Effect.continueRequest ev.tabId ev.requestId (some d.headers)
         d.postData]) := by
    simp [handleFetchPaused, h1, h2, h3, h4]
  have huid : uniqueIdFor s2 ev2 = d.originalId :=
    uniqueIdFor_mapped s2 ev2 d.originalId g5
  have hresp : handleFetchPaused pl o2 s2 ev2 =
      responseStagePath pl o2 s2 ev2 rh2 i (uniqueIdFor s2 ev2) := by
    rw [handleFetchPaused_routes pl o2 s2 ev2 g1 g2 g3]
    exact routeNonReplay_response pl o2 s2 ev2 rh2 i g4 (by rw [huid]; exact g6)
  refine ⟨?_, ?_, ?_, ?_, ?_, ?_⟩
  · rw [hmain]
    exact alistLookup_erase_self s.replayDataStore token
  · rw [hmain]
    exact alistLookup_set_self s.replayIdToOriginalIdMap ev.requestId d.originalId
  · rw [hmain]
    exact setInsert_mem_self s.pendingActions d.originalId
  · rw [hmain]
  · rw [hmain]
  · rw [hresp]
    simp only [responseStagePath, g8]
    exact listModify_get_eq s2.requestsStore i _ tx g7

/-- Counterexample to C2 as stated: running the concrete replay exchange through
the interception channel (match, then Response stage), the response text is
written onto the original row "orig" while the replay's own synthetic row
"replay-row" receives nothing. -/
theorem replayResponseTarget_counterexample :
    ((handleFetchPaused samplePipeline sampleOracle
        (handleFetchPaused samplePipeline sampleOracle sampleState
          sampleMatchEvent).1
        sampleReplayResponseEvent).1.requestsStore.map
      (fun t => (t.id, t.rawResponse.isSome))) =
      [("orig", true), ("replay-row", false)] := by
  decide

/-- Witness for C2 (amended) at the concrete replay scenario. -/
theorem replayMatchRouting_witness :
    alistLookup (handleFetchPaused samplePipeline sampleOracle sampleState
      sampleMatchEvent).1.replayDataStore "tok" = none ∧
    alistLookup (handleFetchPaused samplePipeline sampleOracle sampleState
      sampleMatchEvent).1.replayIdToOriginalIdMap "R9" = some "orig" ∧
    "orig" ∈ (handleFetchPaused samplePipeline sampleOracle sampleState
      sampleMatchEvent).1.pendingActions ∧
    (handleFetchPaused samplePipeline sampleOracle sampleState
      sampleMatchEvent).1.requestsStore = sampleState.requestsStore ∧
    (handleFetchPaused samplePipeline sampleOracle sampleState
      sampleMatchEvent).2 =
      [Effect.continueRequest 1 "R9" (some [⟨"A", "1"⟩]) (some "pd")] ∧
    (handleFetchPaused samplePipeline sampleOracle
      (handleFetchPaused samplePipeline sampleOracle sampleState
        sampleMatchEvent).1
      sampleReplayResponseEvent).1.requestsStore[0]? =
      some { sampleTxOrig with
        rawResponse := some ("HTTP/1.1 " ++
          statusCodeText sampleReplayResponseEvent.responseStatusCode ++
          "\r\n" ++
          headerBlockStr (samplePipeline.processResponseHeaders [⟨"C", "d"⟩]
            sampleReplayResponseEvent.url
            sampleReplayResponseEvent.requestId) ++
          "\r\n" ++ samplePipeline.processResponseBody "BODY"
            sampleReplayResponseEvent.url
            sampleReplayResponseEvent.requestId),
        status := TxStatus.finished,
        responseHeaders :=
          some (samplePipeline.processResponseHeaders [⟨"C", "d"⟩]
            sampleReplayResponseEvent.url
            sampleReplayResponseEvent.requestId) } :=
  replayMatchRouting samplePipeline sampleOracle sampleOracle sampleState
    (handleFetchPaused samplePipeline sampleOracle sampleState
      sampleMatchEvent).1
    sampleMatchEvent sampleReplayResponseEvent "tok" sampleReplayData
    [⟨"C", "d"⟩] 0 sampleTxOrig "BODY"
    (by decide) (by decide) (by decide) (by decide) (by decide) (by decide)
    (by decide) (by decide) (by decide) (by decide) (by decide) (by decide)

/-- C1 (invariants, corrected): each of the three completion paths — the
interception match, the direct success/failure signal, and the deadline —
removes the correlation from the live map (cancelling its timer) the moment it
fires, so a direct signal or a deadline firing that arrives after the
correlation is gone is a complete no-op (state unchanged, no effects); a late
interception match no longer finds the correlation and is processed as an
ordinary pause event, so it cannot resolve the correlation (though it may
insert a fresh ledger row). If neither a match nor a signal arrives in time,
the deadline writes the timeout message onto the synthetic row and removes the
correlation. -/
theorem replayCompletionExclusive (pl : Pipeline) (o : FetchOracle)
    (s s2 : BgState) (ev : PauseEvent) (token text : String) (d : ReplayData)
    (j : Nat) (tx : Transaction)
    (hLive : alistLookup s.replayDataStore token = some d)
    (hRow : findTxIdx s.requestsStore d.replayId = some j)
    (hTx : s.requestsStore[j]? = some tx)
    (hGone : alistLookup s2.replayDataStore token = none)
    (hMatch : matchReplayToken s ev = some (token, d))
    (h1 : ¬ ev.requestId = "")
    (h2 : s.apiWhitelist.any (fun w => strStartsWith ev.url w) = false) :
    alistLookup (handleReplaySignal token text s).1.replayDataStore token =
      none ∧
    alistLookup (handleDeadline token s).1.replayDataStore token = none ∧
    (handleDeadline token s).1.requestsStore[j]? =
      some { tx with rawResponse := some "重放请求超时" } ∧
    alistLookup (handleFetchPaused pl o s ev).1.replayDataStore token = none ∧
    handleReplaySignal token text s2 = (s2, []) ∧
    handleDeadline token s2 = (s2, []) := by
  refine ⟨?_, ?_, ?_, ?_, ?_, ?_⟩
  · simp only [handleReplaySignal, hLive]
    cases hfi : findTxIdx s.requestsStore d.replayId <;>
      simp [hfi, alistLookup_erase_self]
  · simp only [handleDeadline, hLive, cleanupReplayState]
    cases hfi : findTxIdx s.requestsStore d.replayId <;>
      simp [hfi, alistLookup_erase_self]
  · simp only [handleDeadline, hLive, cleanupReplayState, hRow]
    simp only [String.reduceEq, if_false, reduceIte]
    exact listModify_get_eq s.requestsStore j _ tx hTx
  · simp only [handleFetchPaused, h1, h2, hMatch]
    cases hc : o.replayContinueOk <;> simp [hc, alistLookup_erase_self]
  · simp [handleReplaySignal, hGone]
  · simp [handleDeadline, hGone]

/-- Counterexample to C1 as stated: after the deadline has resolved the
correlation, the late-arriving interception match (the pause event still
carrying the token) does not leave the ledger unchanged — it is routed as a
brand-new exchange and inserts a third row. -/
theorem replayLateMatchMutatesLedger_counterexample :
    sampleStateResolved.requestsStore.length = 2 ∧
    alistLookup sampleStateResolved.replayDataStore "tok" = none ∧
    (handleFetchPaused samplePipeline sampleOracle sampleStateResolved
      sampleLateMatchEvent).1.requestsStore.length = 3 := by
  refine ⟨by decide, by decide, by decide⟩

/-- Witness for C1 (amended) at the concrete replay scenario. -/
theorem replayCompletionExclusive_witness :
    alistLookup (handleReplaySignal "tok" "RESP"
      sampleState).1.replayDataStore "tok" = none ∧
    alistLookup (handleDeadline "tok" sampleState).1.replayDataStore "tok" =
      none ∧
    (handleDeadline "tok" sampleState).1.requestsStore[1]? =
      some { sampleTxReplay with rawResponse := some "重放请求超时" } ∧
    alistLookup (handleFetchPaused samplePipeline sampleOracle sampleState
      sampleMatchEvent).1.replayDataStore "tok" = none ∧
    handleReplaySignal "tok" "RESP" sampleStateResolved =
      (sampleStateResolved, []) ∧
    handleDeadline "tok" sampleStateResolved = (sampleStateResolved, []) :=
  replayCompletionExclusive samplePipeline sampleOracle sampleState
    sampleStateResolved sampleMatchEvent "tok" "RESP" sampleReplayData 1
    sampleTxReplay (by decide) (by decide) (by decide) (by decide) (by decide)
    (by decide) (by decide)

/-- C3 (functional_correctness): a Request-stage pause event of a not-yet-seen,
non-whitelisted, non-replay exchange that the proxy reconciler does not handle
creates a Transaction whose raw request text is assembled from the
pipeline-processed URL, headers and (truthy) body, appends it to the ledger and
broadcasts; its status is paused in intercept mode, and in proxy mode it is
created finished and the low-level exchange is immediately resumed with no
operator action (exactly one resume command; none in intercept mode). -/
theorem newExchangeCreated (pl : Pipeline) (o : FetchOracle) (s : BgState)
    (ev : PauseEvent)
    (h1 : ¬ ev.requestId = "")
    (h2 : s.apiWhitelist.any (fun w => strStartsWith ev.url w) = false)
    (h3 : matchReplayToken s ev = none)
    (hRH : ev.responseHeaders = none)
    (hIdx : findTxIdx s.requestsStore (uniqueIdFor s ev) = none)
    (hP : o.proxyHandled = false)
    (hC : o.proxyContinueOk = true) :
    (handleFetchPaused pl o s ev).1.requestsStore = s.requestsStore ++
      [{ id := uniqueIdFor s ev, tabId := ev.tabId, requestId := ev.requestId,
         reqUrl := some ev.url, reqMethod := ev.method,
         reqHeaders := ev.reqHeaders, reqPostData := ev.postData,
         rawRequest := assembleRawRequestStr ev.method
           (pl.processUrl ev.url ev.requestId)
           (ev.reqHeaders.map (fun h =>
             pl.processRequestHeader h ev.url ev.requestId))
           ((truthyS ev.postData).map (fun pd =>
             pl.processRequestBody pd ev.url ev.requestId)),
         rawResponse := none,
         status := if s.mode = Mode.proxy then TxStatus.finished
           else TxStatus.paused,
         isRedirect := ev.redirectResponse,
         requestHeaders := ev.reqHeaders.map (fun h =>
           pl.processRequestHeader h ev.url ev.requestId),
         responseHeaders := none }] ∧
    hasBroadcast (handleFetchPaused pl o s ev).2 = true ∧
    (s.mode = Mode.proxy →
      countContinues (handleFetchPaused pl o s ev).2 = 1) ∧
    (s.mode = Mode.intercept →
      countContinues (handleFetchPaused pl o s ev).2 = 0) := by
  rw [handleFetchPaused_routes pl o s ev h1 h2 h3,
      routeNonReplay_new pl o s ev hRH hIdx hP]
  cases hm : s.mode <;> cases hr : ev.redirectResponse <;>
    simp [newExchangePath, hC, hm, hr, hasBroadcast, isBroadcast,
      countContinues, isContinue, List.filter]

/-- Witness for C3 at a concrete brand-new Request-stage event in intercept
mode. -/
theorem newExchangeCreated_witness :
    (handleFetchPaused samplePipeline sampleOracle sampleState
      sampleNewEvent).1.requestsStore = sampleState.requestsStore ++
      [{ id := uniqueIdFor sampleState sampleNewEvent, tabId := 1,
         requestId := "R5", reqUrl := some "http://new.example/",
         reqMethod := "POST", reqHeaders := [⟨"H", "v"⟩],
         reqPostData := some "x=1",
         rawRequest := assembleRawRequestStr "POST"
           (samplePipeline.processUrl "http://new.example/" "R5")
           ([⟨"H", "v"⟩].map (fun h =>
             samplePipeline.processRequestHeader h "http://new.example/" "R5"))
           ((truthyS (some "x=1")).map (fun pd =>
             samplePipeline.processRequestBody pd "http://new.example/" "R5")),
         rawResponse := none,
         status := if sampleState.mode = Mode.proxy then TxStatus.finished
           else TxStatus.paused,
         isRedirect := false,
         requestHeaders := [⟨"H", "v"⟩].map (fun h =>
           samplePipeline.processRequestHeader h "http://new.example/" "R5"),
         responseHeaders := none }] ∧
    hasBroadcast (handleFetchPaused samplePipeline sampleOracle sampleState
      sampleNewEvent).2 = true ∧
    (sampleState.mode = Mode.proxy →
      countContinues (handleFetchPaused samplePipeline sampleOracle sampleState
        sampleNewEvent).2 = 1) ∧
    (sampleState.mode = Mode.intercept →
      countContinues (handleFetchPaused samplePipeline sampleOracle sampleState
        sampleNewEvent).2 = 0) :=
  newExchangeCreated samplePipeline sampleOracle sampleState sampleNewEvent
    (by decide) (by decide) (by decide) (by decide) (by decide) (by decide)
    (by decide)

/-! Proxy-consultation counting lemmas. -/

theorem responseStagePath_proxyConsults (pl : Pipeline) (o : FetchOracle)
    (s : BgState) (ev : PauseEvent) (rh : List Header) (i : Nat) (uid : String) :
    countProxyConsults (responseStagePath pl o s ev rh i uid).2 = 0 := by
  simp only [responseStagePath]
  cases o.bodyResult <;>
    simp [countProxyConsults, isProxyConsult, List.filter]

theorem newExchangePath_proxyConsults (pl : Pipeline) (o : FetchOracle)
    (s : BgState) (ev : PauseEvent) (uid : String) (pfx : List Effect) :
    countProxyConsults (newExchangePath pl o s ev uid pfx).2 =
      countProxyConsults pfx := by
  simp only [newExchangePath]
  split
  · split
    · simp [countProxyConsults, isProxyConsult, List.filter_append, List.filter]
    · split <;>
        simp [countProxyConsults, isProxyConsult, List.filter_append,
          List.filter]
  · simp [countProxyConsults, isProxyConsult, List.filter_append, List.filter]

/-- C9 (temporal, corrected): the proxy reconciler is never consulted for a
pause event carrying response headers or a redirect marker, and never for an
event matching a live replay correlation; but it *is* consulted for every other
non-whitelisted Request-stage event — including one whose identity matches an
already-seen transaction — and when it reports the request handled the router
takes no further action for that pause (no ledger change, no resume, no
broadcast). -/
theorem proxyConsultScope (pl : Pipeline) (o o2 o3 : FetchOracle)
    (s s2 s3 : BgState) (ev ev2 ev3 : PauseEvent) (x : String × ReplayData)
    (hNC : (ev.responseHeaders.isNone && !ev.redirectResponse) = false)
    (hM2 : matchReplayToken s2 ev2 = some x)
    (k1 : ¬ ev3.requestId = "")
    (k2 : s3.apiWhitelist.any (fun w => strStartsWith ev3.url w) = false)
    (k3 : matchReplayToken s3 ev3 = none)
    (k4 : ev3.responseHeaders = none)
    (k5 : ev3.redirectResponse = false)
    (k6 : o3.proxyHandled = true) :
    countProxyConsults (handleFetchPaused pl o s ev).2 = 0 ∧
    countProxyConsults (handleFetchPaused pl o2 s2 ev2).2 = 0 ∧
    handleFetchPaused pl o3 s3 ev3 =
      (s3, [Effect.proxyConsulted ev3.requestId ev3.url]) := by
  refine ⟨?_, ?_, ?_⟩
  · by_cases hq : ev.requestId = ""
    · simp [handleFetchPaused, hq, countProxyConsults]
    · by_cases hw : s.apiWhitelist.any (fun w => strStartsWith ev.url w) = true
      · simp [handleFetchPaused, hq, hw, countProxyConsults, isProxyConsult,
          List.filter]
      · simp only [handleFetchPaused, if_neg hq,
          Bool.not_eq_true (s.apiWhitelist.any fun w => strStartsWith ev.url w)]
        rw [if_neg (by simp_all)]
        cases hm : matchReplayToken s ev with
        | some td =>
          cases hc : o.replayContinueOk <;>
            simp [hc, countProxyConsults, isProxyConsult, List.filter]
        | none =>
          simp only [routeNonReplay, hNC, Bool.false_and, Bool.false_eq_true,
            if_false, reduceIte]
          cases hrh : ev.responseHeaders with
          | some rh =>
            cases hfi : findTxIdx s.requestsStore (uniqueIdFor s ev) with
            | some i =>
              simp only [hfi]
              exact responseStagePath_proxyConsults pl o s ev rh i
                (uniqueIdFor s ev)
            | none => simp [hfi, countProxyConsults, List.filter]
          | none =>
            cases hfi : findTxIdx s.requestsStore (uniqueIdFor s ev) with
            | some i => simp [hfi, countProxyConsults, List.filter]
            | none =>
              simp only [hfi]
              rw [newExchangePath_proxyConsults]
              simp [countProxyConsults, List.filter]
  · by_cases hq : ev2.requestId = ""
    · simp [handleFetchPaused, hq, countProxyConsults]
    · by_cases hw : s2.apiWhitelist.any (fun w => strStartsWith ev2.url w) = true
      · simp [handleFetchPaused, hq, hw, countProxyConsults, isProxyConsult,
          List.filter]
      · rw [handleFetchPaused, if_neg hq, if_neg (by simp_all)]
        rw [hM2]
        cases hc : o2.replayContinueOk <;>
          simp [hc, countProxyConsults, isProxyConsult, List.filter]
  · rw [handleFetchPaused_routes pl o3 s3 ev3 k1 k2 k3]
    simp [routeNonReplay, k4, k5, k6]

/-- Counterexample to C9 as stated: for a concrete Request-stage pause event
whose derived identity matches the existing transaction "orig" (an already-seen
exchange, not a new one), the proxy reconciler is still consulted. -/
theorem proxyConsultedForSeen_counterexample :
    findTxIdx sampleStateResolved.requestsStore
      (uniqueIdFor sampleStateResolved sampleRebindEvent) = some 0 ∧
    countProxyConsults (handleFetchPaused samplePipeline sampleOracle
      sampleStateResolved sampleRebindEvent).2 = 1 := by
  refine ⟨by decide, by decide⟩

/-- Witness for C9 (amended) at concrete events: a Response-stage event and a
token-matching event consult nothing, and a handled Request-stage event is
terminal. -/
theorem proxyConsultScope_witness :
    countProxyConsults (handleFetchPaused samplePipeline sampleOracle
      sampleState sampleOrigResponseEvent).2 = 0 ∧
    countProxyConsults (handleFetchPaused samplePipeline sampleOracle
      sampleState sampleMatchEvent).2 = 0 ∧
    handleFetchPaused samplePipeline sampleOracleProxied sampleStateResolved
      sampleNewEvent =
      (sampleStateResolved, [Effect.proxyConsulted "R5" "http://new.example/"]) :=
  proxyConsultScope samplePipeline sampleOracle sampleOracle
    sampleOracleProxied sampleState sampleState sampleStateResolved
    sampleOrigResponseEvent sampleMatchEvent sampleNewEvent
    ("tok", sampleReplayData) (by decide) (by decide) (by decide) (by decide)
    (by decide) (by decide) (by decide) (by decide)

/-! Broadcast coverage lemmas: each handler either leaves the ledger unchanged
or emits a broadcast (except for the Request-stage rebind path, treated in the
main theorem). -/

theorem responseStagePath_hasBroadcast (pl : Pipeline) (o : FetchOracle)
    (s : BgState) (ev : PauseEvent) (rh : List Header) (i : Nat) (uid : String) :
    hasBroadcast (responseStagePath pl o s ev rh i uid).2 = true := by
  simp only [responseStagePath]
  cases o.bodyResult <;> simp [hasBroadcast, isBroadcast]

theorem newExchangePath_hasBroadcast (pl : Pipeline) (o : FetchOracle)
    (s : BgState) (ev : PauseEvent) (uid : String) (pfx : List Effect) :
    hasBroadcast (newExchangePath pl o s ev uid pfx).2 = true := by
  simp only [newExchangePath]
  split
  · split
    · simp [hasBroadcast, isBroadcast, List.any_append]
    · split <;> simp [hasBroadcast, isBroadcast, List.any_append]
  · simp [hasBroadcast, isBroadcast, List.any_append]

theorem routeNonReplay_unchanged_or_broadcast (pl : Pipeline) (o : FetchOracle)
    (s : BgState) (ev : PauseEvent)
    (hNR : (ev.responseHeaders.isNone &&
      (findTxIdx s.requestsStore (uniqueIdFor s ev)).isSome) = false) :
    (routeNonReplay pl o s ev).1.requestsStore = s.requestsStore ∨
    hasBroadcast (routeNonReplay pl o s ev).2 = true := by
  simp only [routeNonReplay]
  split
  · exact Or.inl rfl
  · cases hrh : ev.responseHeaders with
    | some rh =>
      simp only
      cases hfi : findTxIdx s.requestsStore (uniqueIdFor s ev) with
      | some i =>
        simp only [hfi]
        exact Or.inr (responseStagePath_hasBroadcast pl o s ev rh i
          (uniqueIdFor s ev))
      | none =>
        simp [hfi]
    | none =>
      simp only
      cases hfi : findTxIdx s.requestsStore (uniqueIdFor s ev) with
      | some i =>
        rw [hrh, hfi] at hNR
        simp at hNR
      | none =>
        simp only [hfi]
        exact Or.inr (newExchangePath_hasBroadcast pl o s ev
          (uniqueIdFor s ev) _)

theorem handleResume_unchanged_or_broadcast (rd : ReqRef) (raw : String)
    (hs : Option (List Header)) (err : Option String) (s : BgState) :
    (handleResume rd raw hs err s).1.requestsStore = s.requestsStore ∨
    hasBroadcast (handleResume rd raw hs err s).2 = true := by
  simp only [handleResume]
  split
  · exact Or.inl rfl
  · cases hfi : findTxIdx s.requestsStore rd.id with
    | none => exact Or.inl rfl
    | some i =>
      simp only
      split
      · exact Or.inr (by simp [hasBroadcast, isBroadcast])
      · cases err <;> exact Or.inr (by simp [hasBroadcast, isBroadcast])

theorem cleanupReplayState_unchanged_or_broadcast (token rowId origId : String)
    (updateUI : Bool) (response : String) (s : BgState) :
    (cleanupReplayState token rowId origId updateUI response s).1.requestsStore =
      s.requestsStore ∨
    hasBroadcast
      (cleanupReplayState token rowId origId updateUI response s).2 = true := by
  simp only [cleanupReplayState]
  cases hlk : alistLookup s.replayDataStore token with
  | none => exact Or.inl rfl
  | some d =>
    simp only
    cases hui : updateUI with
    | false => exact Or.inl rfl
    | true =>
      simp only [if_true]
      cases hfi : findTxIdx s.requestsStore rowId with
      | none => exact Or.inl rfl
      | some j => exact Or.inr (by simp [hasBroadcast, isBroadcast])

theorem handleReplaySignal_unchanged_or_broadcast (token text : String)
    (s : BgState) :
    (handleReplaySignal token text s).1.requestsStore = s.requestsStore ∨
    hasBroadcast (handleReplaySignal token text s).2 = true := by
  simp only [handleReplaySignal]
  cases hlk : alistLookup s.replayDataStore token with
  | none => exact Or.inl rfl
  | some d =>
    simp only
    cases hfi : findTxIdx s.requestsStore d.replayId with
    | none => exact Or.inl rfl
    | some j => exact Or.inr (by simp [hasBroadcast, isBroadcast])

theorem handleDeadline_unchanged_or_broadcast (token : String) (s : BgState) :
    (handleDeadline token s).1.requestsStore = s.requestsStore ∨
    hasBroadcast (handleDeadline token s).2 = true := by
  simp only [handleDeadline]
  cases hlk : alistLookup s.replayDataStore token with
  | none => exact Or.inl rfl
  | some d => exact cleanupReplayState_unchanged_or_broadcast _ _ _ _ _ _

theorem handleReplay_unchanged_or_broadcast (rd : ReqRef) (raw : String)
    (hs : Option (List Header)) (token rowId : String) (injectOk : Bool)
    (s : BgState) :
    (handleReplay rd raw hs token rowId injectOk s).1.requestsStore =
      s.requestsStore ∨
    hasBroadcast (handleReplay rd raw hs token rowId injectOk s).2 = true := by
  simp only [handleReplay]
  split
  · exact Or.inl rfl
  · split
    · exact Or.inr (by simp [hasBroadcast, isBroadcast])
    · refine Or.inr ?_
      simp [hasBroadcast, isBroadcast, List.any_append]

/-- C8 (temporal, corrected): every event step that mutates the transaction
ledger emits a broadcast of the full transaction list — with the single
exception of the Request-stage rebind of an already-known exchange, which
mutates the row's low-level request id without broadcasting (and is excluded
by the `isRebindPaused` hypothesis). -/
theorem ledgerMutationBroadcast (pl : Pipeline) (s : BgState) (e : Event)
    (hNR : isRebindPaused s e = false)
    (hch : ¬ (step pl s e).1.requestsStore = s.requestsStore) :
    hasBroadcast (step pl s e).2 = true := by
  cases e with
  | paused ev o =>
    by_cases hq : ev.requestId = ""
    · exact absurd (by simp [step, handleFetchPaused, hq]) hch
    · by_cases hw : (s.apiWhitelist.any fun w => strStartsWith ev.url w) = true
      · exact absurd (by simp [step, handleFetchPaused, hq, hw]) hch
      · have hw' : (s.apiWhitelist.any fun w => strStartsWith ev.url w) =
          false := by simp_all
        cases hm : matchReplayToken s ev with
        | some td =>
          obtain ⟨token, d⟩ := td
          cases hc : o.replayContinueOk
          · exact absurd
              (by simp [step, handleFetchPaused, hq, hw', hm, hc]) hch
          · exact absurd
              (by simp [step, handleFetchPaused, hq, hw', hm, hc]) hch
        | none =>
          have hroute : step pl s (Event.paused ev o) =
              routeNonReplay pl o s ev :=
            handleFetchPaused_routes pl o s ev hq hw' hm
          rw [hroute] at hch ⊢
          have hNR' : (ev.responseHeaders.isNone &&
              (findTxIdx s.requestsStore (uniqueIdFor s ev)).isSome) = false := by
            simpa [isRebindPaused] using hNR
          rcases routeNonReplay_unchanged_or_broadcast pl o s ev hNR' with
            h | h
          · exact absurd h hch
          · exact h
  | getInitial => simp [step, hasBroadcast, isBroadcast]
  | resumeMsg rd raw hs err =>
    rcases handleResume_unchanged_or_broadcast rd raw hs err s with h | h
    · exact absurd h hch
    · exact h
  | replayMsg rd raw hs token rowId ok =>
    rcases handleReplay_unchanged_or_broadcast rd raw hs token rowId ok s with
      h | h
    · exact absurd h hch
    · exact h
  | fetchSuccess t r =>
    rcases handleReplaySignal_unchanged_or_broadcast t r s with h | h
    · exact absurd h hch
    · exact h
  | fetchFailed t e =>
    rcases handleReplaySignal_unchanged_or_broadcast t _ s with h | h
    · exact absurd h hch
    · exact h
  | clearRequests => simp [step, hasBroadcast, isBroadcast]
  | deadlineFired t =>
    rcases handleDeadline_unchanged_or_broadcast t s with h | h
    · exact absurd h hch
    · exact h
  | setMode m => exact absurd rfl hch

/-- Counterexample to C8 as stated: the concrete Request-stage re-pause of an
existing exchange rebinds the row's low-level request id — a ledger mutation —
but emits no broadcast. -/
theorem rebindWithoutBroadcast_counterexample :
    ¬ (handleFetchPaused samplePipeline sampleOracle sampleStateResolved
        sampleRebindEvent).1.requestsStore =
      sampleStateResolved.requestsStore ∧
    hasBroadcast (handleFetchPaused samplePipeline sampleOracle
      sampleStateResolved sampleRebindEvent).2 = false := by
  refine ⟨by decide, by decide⟩

/-- Witness for C8 (amended) at a concrete mutating step: clearing a non-empty
ledger broadcasts. -/
theorem ledgerMutationBroadcast_witness :
    isRebindPaused sampleState Event.clearRequests = false ∧
    hasBroadcast (step samplePipeline sampleState Event.clearRequests).2 =
      true :=
  ⟨by decide, ledgerMutationBroadcast samplePipeline sampleState
    Event.clearRequests (by decide) (by decide)⟩

/-! Lemmas about the split/join character-list utilities, towards the
parse/assemble round trip (C7). -/

theorem splitCh_ne_nil (sep : Char) (l : List Char) : splitCh sep l ≠ [] := by
  induction l with
  | nil => simp [splitCh]
  | cons c rest ih =>
    simp only [splitCh]
    split
    · simp
    · cases h : splitCh sep rest with
      | nil => simp
      | cons s ss => simp

theorem splitCh_no_sep (sep : Char) (l : List Char) (h : sep ∉ l) :
    splitCh sep l = [l] := by
  induction l with
  | nil => rfl
  | cons c rest ih =>
    have hc : ¬ c = sep := fun e => h (e ▸ List.mem_cons_self c rest)
    have hrest : sep ∉ rest := fun e => h (List.mem_cons_of_mem c e)
    simp only [splitCh, if_neg hc, ih hrest]

theorem splitCh_append (sep : Char) (xs ys : List Char) (h : sep ∉ xs) :
    splitCh sep (xs ++ sep :: ys) = xs :: splitCh sep ys := by
  induction xs with
  | nil => simp [splitCh]
  | cons c rest ih =>
    have hc : ¬ c = sep := fun e => h (e ▸ List.mem_cons_self c rest)
    have hrest : sep ∉ rest := fun e => h (List.mem_cons_of_mem c e)
    have hih := ih hrest
    simp only [List.cons_append, splitCh, if_neg hc, List.append_eq] at hih ⊢
    rw [hih]

theorem splitCh_cons_ne (sep c : Char) (r : List Char) (hc : ¬ c = sep) :
    splitCh sep (c :: r) =
      (c :: (splitCh sep r).headI) :: (splitCh sep r).tail := by
  simp only [splitCh, if_neg hc]
  cases h : splitCh sep r with
  | nil => exact absurd h (splitCh_ne_nil sep r)
  | cons s ss => simp

theorem joinCh_cons_cons (sep c : Char) (s : List Char) (ss : List (List Char)) :
    joinCh sep ((c :: s) :: ss) = c :: joinCh sep (s :: ss) := by
  cases ss with
  | nil => rfl
  | cons t ts => simp [joinCh]

theorem joinCh_append_head (sep : Char) (st l : List Char)
    (rest : List (List Char)) :
    joinCh sep ((st ++ sep :: l) :: rest) = st ++ sep :: joinCh sep (l :: rest) := by
  cases rest with
  | nil => rfl
  | cons t ts => simp [joinCh]

theorem joinCh_splitCh (sep : Char) (l : List Char) :
    joinCh sep (splitCh sep l) = l := by
  induction l with
  | nil => rfl
  | cons c rest ih =>
    by_cases hc : c = sep
    · subst hc
      simp only [splitCh, if_pos rfl]
      cases h : splitCh c rest with
      | nil => exact absurd h (splitCh_ne_nil c rest)
      | cons s ss =>
        rw [h] at ih
        calc joinCh c ([] :: s :: ss) = c :: joinCh c (s :: ss) := by
              simp [joinCh]
          _ = c :: rest := by rw [ih]
    · rw [splitCh_cons_ne sep c rest hc]
      cases h : splitCh sep rest with
      | nil => exact absurd h (splitCh_ne_nil sep rest)
      | cons s ss =>
        rw [h] at ih
        simp only [List.headI, List.tail]
        rw [joinCh_cons_cons, ih]

theorem splitColonSpace_cons_cons (c d : Char) (rest : List Char) :
    splitColonSpace (c :: d :: rest) =
      if c = ':' ∧ d = ' ' then [] :: splitColonSpace rest
      else
        match splitColonSpace (d :: rest) with
        | [] => [[c]]
        | s :: ss => (c :: s) :: ss := rfl

theorem splitColonSpace_boundary (name value : List Char) (h : ':' ∉ name) :
    splitColonSpace (name ++ ':' :: ' ' :: value) =
      name :: splitColonSpace value := by
  induction name with
  | nil =>
    rw [List.nil_append, splitColonSpace_cons_cons]
    simp
  | cons a name' ih =>
    have ha : ¬ a = ':' := fun e => h (e ▸ List.mem_cons_self a name')
    have hname' : ':' ∉ name' := fun e => h (List.mem_cons_of_mem a e)
    have hih := ih hname'
    have hbase : splitColonSpace (':' :: ' ' :: value) =
        [] :: splitColonSpace value := by
      rw [splitColonSpace_cons_cons]
      simp
    cases name' with
    | nil =>
      show splitColonSpace (a :: ':' :: ' ' :: value) =
        [a] :: splitColonSpace value
      rw [splitColonSpace_cons_cons, if_neg (by simp [ha]), hbase]
    | cons b name'' =>
      simp only [List.cons_append] at hih ⊢
      rw [splitColonSpace_cons_cons, if_neg (by simp [ha]), hih]

theorem splitColonSpace_no_sep (v : List Char) (h : hasColonSpace v = false) :
    splitColonSpace v = [v] := by
  induction v with
  | nil => rfl
  | cons c rest ih =>
    cases rest with
    | nil => rfl
    | cons d rest' =>
      simp only [hasColonSpace, Bool.or_eq_false_iff, Bool.and_eq_false_iff] at h
      have hnot : ¬ (c = ':' ∧ d = ' ') := by
        intro ⟨e1, e2⟩
        rcases h.1 with h1 | h1
        · rw [e1] at h1
          simp at h1
        · rw [e2] at h1
          simp at h1
      have hih := ih h.2
      simp only [splitColonSpace]
      rw [if_neg hnot, hih]

theorem parseLines_headers (hs' : List HeaderL) (acc : List HeaderL)
    (tail : List (List Char))
    (wf : ∀ h ∈ hs', ':' ∉ h.name ∧ hasColonSpace h.value = false) :
    parseLines (hs'.map headerLineL ++ tail) true acc none =
      parseLines tail true (acc ++ hs') none := by
  induction hs' generalizing acc with
  | nil => simp
  | cons h rest ih =>
    have hw := wf h (List.mem_cons_self h rest)
    have hwrest : ∀ g ∈ rest, ':' ∉ g.name ∧ hasColonSpace g.value = false :=
      fun g hg => wf g (List.mem_cons_of_mem h hg)
    have hline : headerLineL h ≠ [] := by
      simp only [headerLineL]
      cases hn : h.name <;> simp
    have hsplit : splitColonSpace (headerLineL h) = [h.name, h.value] := by
      rw [headerLineL, splitColonSpace_boundary h.name h.value hw.1,
        splitColonSpace_no_sep h.value hw.2]
    simp only [List.map_cons, List.cons_append, parseLines]
    rw [if_neg (by simp [hline])]
    simp only [if_true, true_and, List.append_eq]
    rw [hsplit]
    simp only
    have heta : ({ name := h.name, value := h.value } : HeaderL) = h := rfl
    rw [heta, ih (acc ++ [h]) hwrest]
    simp

theorem parseLines_body_acc (segs : List (List Char)) (hs : List HeaderL)
    (st : List Char) (hne : st ≠ []) :
    parseLines segs false hs (some st) =
      (hs, some (joinCh '\n' (st :: segs))) := by
  induction segs generalizing st with
  | nil => simp [parseLines, joinCh]
  | cons l rest ih =>
    simp only [parseLines, bodyAppend]
    rw [if_neg (by simp), if_neg (by simp)]
    rw [if_neg hne]
    have hne' : st ++ '\n' :: l ≠ [] := by simp
    rw [ih (st ++ '\n' :: l) hne']
    rw [joinCh_append_head]
    rfl

theorem parseLines_bodySegs (bb : List Char) (hs : List HeaderL)
    (hne : bb ≠ []) (hhead : ¬ bb.headI = '\n') :
    parseLines (splitCh '\n' bb) false hs none = (hs, some bb) := by
  cases bb with
  | nil => exact absurd rfl hne
  | cons c r =>
    simp only [List.headI] at hhead
    rw [splitCh_cons_ne '\n' c r hhead]
    cases h : splitCh '\n' r with
    | nil => exact absurd h (splitCh_ne_nil '\n' r)
    | cons s ss =>
      simp only [List.headI, List.tail]
      simp only [parseLines, bodyAppend]
      rw [if_neg (by simp), if_neg (by simp)]
      rw [parseLines_body_acc ss hs (c :: s) (by simp)]
      have : joinCh '\n' ((c :: s) :: ss) = c :: r := by
        have hj := joinCh_splitCh '\n' (c :: r)
        rw [splitCh_cons_ne '\n' c r hhead, h] at hj
        simpa using hj
      rw [this]

theorem filter_ne_of_not_mem (l : List Char) (x : Char) (h : x ∉ l) :
    l.filter (fun c => c ≠ x) = l :=
  List.filter_eq_self.mpr (fun a ha => by
    simp only [decide_eq_true_eq]
    exact fun e => h (e ▸ ha))

theorem splitCh_headerBlock (hs : List HeaderL) (tail : List Char)
    (wf : ∀ h ∈ hs, '\n' ∉ h.name ∧ '\r' ∉ h.name ∧ '\n' ∉ h.value ∧
      '\r' ∉ h.value) :
    splitCh '\n' ((headerLinesText hs).filter (fun c => c ≠ '\r') ++ tail) =
      hs.map headerLineL ++ splitCh '\n' tail := by
  induction hs with
  | nil => simp [headerLinesText]
  | cons h rest ih =>
    have hw := wf h (List.mem_cons_self h rest)
    have hwrest : ∀ g ∈ rest, '\n' ∉ g.name ∧ '\r' ∉ g.name ∧ '\n' ∉ g.value ∧
        '\r' ∉ g.value := fun g hg => wf g (List.mem_cons_of_mem h hg)
    have hnoCR : '\r' ∉ headerLineL h := by
      simp only [headerLineL, List.mem_append, List.mem_cons]
      push_neg
      exact ⟨hw.2.1, by decide, by decide, hw.2.2.2⟩
    have hnoNL : '\n' ∉ headerLineL h := by
      simp only [headerLineL, List.mem_append, List.mem_cons]
      push_neg
      exact ⟨hw.1, by decide, by decide, hw.2.2.1⟩
    have hfl : (headerLinesText (h :: rest)).filter (fun c => c ≠ '\r') =
        headerLineL h ++ '\n' ::
          (headerLinesText rest).filter (fun c => c ≠ '\r') := by
      simp only [headerLinesText, List.filter_append, List.filter_cons]
      rw [filter_ne_of_not_mem (headerLineL h) '\r' hnoCR]
      simp
    rw [hfl, List.append_assoc, List.cons_append,
      splitCh_append '\n' (headerLineL h) _ hnoNL, ih hwrest]
    simp

/-- C7 (algebraic_relational, corrected): parsing an assembled raw request
returns exactly the method, URL, header list and optional body it was assembled
from, provided the inputs are well-formed for the simple text framing: method
and URL contain no space, CR or LF; each header name contains no colon, CR or
LF and each value no CR, LF or ": "; and the body, when present, is non-empty,
CR-free and does not start with a line break. -/
theorem parseAssembleRoundtrip (m u : List Char) (hs : List HeaderL)
    (b : Option (List Char))
    (hm1 : ' ' ∉ m) (hm2 : '\n' ∉ m) (hm3 : '\r' ∉ m)
    (hu1 : ' ' ∉ u) (hu2 : '\n' ∉ u) (hu3 : '\r' ∉ u)
    (hh : ∀ h ∈ hs, wfHeaderL h)
    (hb : ∀ s, b = some s → s ≠ [] ∧ '\r' ∉ s ∧ ¬ s.headI = '\n') :
    parseRawRequest (assembleRawRequest m u hs b) = ⟨m, some u, hs, b⟩ := by
  have hfm := filter_ne_of_not_mem m '\r' hm3
  have hfu := filter_ne_of_not_mem u '\r' hu3
  have hfsuf : httpSuffix.filter (fun c => c ≠ '\r') = httpSuffix := by decide
  have hwNL : ∀ h ∈ hs, '\n' ∉ h.name ∧ '\r' ∉ h.name ∧ '\n' ∉ h.value ∧
      '\r' ∉ h.value := by
    intro h hm
    obtain ⟨_, w2, w3, w4, w5, _⟩ := hh h hm
    exact ⟨w2, w3, w4, w5⟩
  have hwCS : ∀ h ∈ hs, ':' ∉ h.name ∧ hasColonSpace h.value = false := by
    intro h hm
    obtain ⟨w1, _, _, _, _, w6⟩ := hh h hm
    exact ⟨w1, w6⟩
  have hstartNL : '\n' ∉ (m ++ ' ' :: (u ++ httpSuffix)) := by
    simp only [List.mem_append, List.mem_cons]
    push_neg
    refine ⟨hm2, by decide, hu2, by decide⟩
  have hfp : splitCh ' ' (m ++ ' ' :: (u ++ httpSuffix)) =
      [m, u, httpVersionTag] := by
    rw [splitCh_append ' ' m _ hm1]
    rw [show httpSuffix = ' ' :: httpVersionTag from rfl]
    rw [splitCh_append ' ' u _ hu1]
    rw [splitCh_no_sep ' ' httpVersionTag (by decide)]
  have hfm' : List.filter (fun c => !decide (c = '\r')) m = m := by
    simpa using hfm
  have hfu' : List.filter (fun c => !decide (c = '\r')) u = u := by
    simpa using hfu
  have hfsuf' : List.filter (fun c => !decide (c = '\r')) httpSuffix =
      httpSuffix := by
    simpa using hfsuf
  cases b with
  | none =>
    have hF : (assembleRawRequest m u hs none).filter (fun c => c ≠ '\r') =
        (m ++ ' ' :: (u ++ httpSuffix)) ++ '\n' ::
          ((headerLinesText hs).filter (fun c => c ≠ '\r')) := by
      simp [assembleRawRequest, List.filter_append, List.filter_cons, hfm',
        hfu', hfsuf']
    have hblk := splitCh_headerBlock hs [] hwNL
    rw [List.append_nil] at hblk
    have hlines : splitCh '\n'
        ((assembleRawRequest m u hs none).filter (fun c => c ≠ '\r')) =
        (m ++ ' ' :: (u ++ httpSuffix)) :: (hs.map headerLineL ++ [[]]) := by
      rw [hF, splitCh_append '\n' _ _ hstartNL, hblk]
      rfl
    simp only [parseRawRequest, hlines, List.headI, List.tail, hfp]
    rw [parseLines_headers hs [] [[]] hwCS]
    simp [parseLines]
  | some bb =>
    obtain ⟨hbne, hbCR, hbNL⟩ := hb bb rfl
    have hfb' : List.filter (fun c => !decide (c = '\r')) bb = bb := by
      simpa using filter_ne_of_not_mem bb '\r' hbCR
    have hF : (assembleRawRequest m u hs (some bb)).filter
        (fun c => c ≠ '\r') =
        (m ++ ' ' :: (u ++ httpSuffix)) ++ '\n' ::
          ((headerLinesText hs).filter (fun c => c ≠ '\r') ++ '\n' :: bb) := by
      simp [assembleRawRequest, List.filter_append, List.filter_cons, hfm',
        hfu', hfsuf', hfb']
    have hblk := splitCh_headerBlock hs ('\n' :: bb) hwNL
    have hlines : splitCh '\n'
        ((assembleRawRequest m u hs (some bb)).filter (fun c => c ≠ '\r')) =
        (m ++ ' ' :: (u ++ httpSuffix)) ::
          (hs.map headerLineL ++ ([] :: splitCh '\n' bb)) := by
      rw [hF, splitCh_append '\n' _ _ hstartNL, hblk]
      rfl
    simp only [parseRawRequest, hlines, List.headI, List.tail, hfp]
    rw [parseLines_headers hs [] ([] :: splitCh '\n' bb) hwCS]
    have hflip : parseLines ([] :: splitCh '\n' bb) true hs none =
        parseLines (splitCh '\n' bb) false hs none := by
      simp [parseLines]
    rw [List.nil_append, hflip, parseLines_bodySegs bb hs hbne hbNL]
    simp

/-- Counterexample to C7 as stated: for a URL containing a space the round trip
fails — the parsed URL is truncated at the space, so `parseRawRequest` is not a
left inverse of the assembly for *all* methods, URLs, header lists and bodies. -/
theorem parseAssembleRoundtrip_counterexample :
    (parseRawRequest (assembleRawRequest "GET".data "http://x/a b".data []
      none)).url = some "http://x/a".data ∧
    ¬ (parseRawRequest (assembleRawRequest "GET".data "http://x/a b".data []
      none)) = ⟨"GET".data, some "http://x/a b".data, [], none⟩ := by
  refine ⟨by decide, by decide⟩

/-- Witness for C7 (amended) at a concrete well-formed request. -/
theorem parseAssembleRoundtrip_witness :
    parseRawRequest (assembleRawRequest "POST".data "http://x/a".data
      [⟨"Host".data, "x".data⟩, ⟨"A".data, "b;c".data⟩]
      (some "hello\nworld".data)) =
      ⟨"POST".data, some "http://x/a".data,
        [⟨"Host".data, "x".data⟩, ⟨"A".data, "b;c".data⟩],
        some "hello\nworld".data⟩ :=
  parseAssembleRoundtrip "POST".data "http://x/a".data
    [⟨"Host".data, "x".data⟩, ⟨"A".data, "b;c".data⟩]
    (some "hello\nworld".data)
    (by decide) (by decide) (by decide) (by decide) (by decide) (by decide)
    (by decide) (by decide)

end FastBurp
